import Mathlib

/-!
Shallow embedding of `ensamblador.py`, a two-pass textual assembler for a
minimal 8-instruction, 12-bit-word machine, together with theorems settling
the specification claims.

Modelling conventions:
* Python strings are modelled as `String`/`List Char`, restricted to the
  ASCII fragment: `str.strip()` strips the six ASCII whitespace characters,
  `str.upper()` is `Char.toUpper` (ASCII letters only), and the regex
  classes `\w`, `\d`, `\s` are their ASCII readings.
* The two anchored regexes (`re.match`) are embedded as deterministic
  maximal-munch matchers.  For both patterns this is equivalent to the
  backtracking semantics: every quantified class in
  `(\w+)\s+(\w+),\s*\[(\d+)\]` and `MEM\[(\d+)\]\s*=\s*(0X[0-9A-F]+|\d+)`
  is immediately followed by a token disjoint from that class (`\w` vs `\s`,
  `\s` vs `\w`/`,`/`[`/`=`/start of the value alternation, `\d` vs `]`), so
  giving back characters can never produce a match, and the alternation in
  the value token is tried in order with nothing after it.  `re.match` only
  requires a match of a prefix of the line.
* Fallible code returns `Except`.  Python raises `ValueError` in exactly two
  places: the explicit `raise ValueError(f"Instrucción desconocida: …")`,
  and `int(valor_str, 0)`, which rejects a nonzero decimal literal with a
  leading zero.  These are the two constructors of `AsmErr`.
* Python's truthiness tests `if dato:` / `if cod:` in the driver are modelled
  by `Option`: `parsear_datos` only ever returns `None` or a (truthy)
  2-tuple, and `ensamblar_linea` only `None` or a nonempty (truthy) string.
* `datos.sort(key=lambda x: x[0])` is a stable sort ascending by address;
  it is modelled by `List.insertionSort`, which is also stable, and any two
  stable sorts of the same list by the same key agree (the result is
  determined: for each address in ascending order, the entries with that
  address in input order).
-/

namespace Ensamblador

/-- ASCII whitespace (space, tab, newline, carriage return, vertical tab,
form feed), as matched by Python's `str.strip()` and `\s`. -/
def isSpaceChar (c : Char) : Bool :=
  c.toNat = 32 || c.toNat = 9 || c.toNat = 10 || c.toNat = 13 || c.toNat = 11 || c.toNat = 12

/-- ASCII reading of the regex class `\w`: letters, digits, underscore. -/
def isWordChar (c : Char) : Bool :=
  (65 ≤ c.toNat && c.toNat ≤ 90) || (97 ≤ c.toNat && c.toNat ≤ 122)
    || (48 ≤ c.toNat && c.toNat ≤ 57) || c.toNat = 95

/-- ASCII reading of the regex class `\d`: the digits `0`-`9`. -/
def isDigitChar (c : Char) : Bool :=
  48 ≤ c.toNat && c.toNat ≤ 57

/-- ASCII reading of the regex class `[0-9A-F]` under `re.IGNORECASE`. -/
def isHexChar (c : Char) : Bool :=
  (48 ≤ c.toNat && c.toNat ≤ 57) || (65 ≤ c.toNat && c.toNat ≤ 70)
    || (97 ≤ c.toNat && c.toNat ≤ 102)

/-- Remove trailing whitespace (the right half of Python's `str.strip()`). -/
def rstrip (l : List Char) : List Char :=
  (l.reverse.dropWhile isSpaceChar).reverse

/-- Python's `str.strip()` with no arguments. -/
def pyStrip (l : List Char) : List Char :=
  rstrip (l.dropWhile isSpaceChar)

/-- Python's `str.upper()` on the ASCII fragment. -/
def pyUpper (l : List Char) : List Char :=
  l.map Char.toUpper

/-- Maximal-munch embedding of the anchored prefix regex
`(\w+)\s+(\w+),\s*\[(\d+)\]` from `ensamblar_linea`; returns the three
capture groups (mnemonic, register, address digits). -/
def matchInstr (l : List Char) : Option (List Char × List Char × List Char) :=
  let g1 := l.takeWhile isWordChar
  let r1 := l.dropWhile isWordChar
  if g1.isEmpty then none else
  let sp := r1.takeWhile isSpaceChar
  let r2 := r1.dropWhile isSpaceChar
  if sp.isEmpty then none else
  let g2 := r2.takeWhile isWordChar
  let r3 := r2.dropWhile isWordChar
  if g2.isEmpty then none else
  match r3 with
  | ',' :: r4 =>
    match r4.dropWhile isSpaceChar with
    | '[' :: r6 =>
      let g3 := r6.takeWhile isDigitChar
      let r7 := r6.dropWhile isDigitChar
      if g3.isEmpty then none else
      match r7 with
      | ']' :: _ => some (g1, g2, g3)
      | _ => none
    | _ => none
  | _ => none

/-- The value alternation `(0X[0-9A-F]+|\d+)` (with `re.IGNORECASE`),
tried in order, nothing following it in the pattern. -/
def matchValor (l : List Char) : Option (List Char) :=
  let hex : Option (List Char) :=
    match l with
    | z :: x :: rest =>
      if z = '0' && (x = 'X' || x = 'x') && !(rest.takeWhile isHexChar).isEmpty then
        some (z :: x :: rest.takeWhile isHexChar)
      else none
    | _ => none
  match hex with
  | some v => some v
  | none =>
    let d := l.takeWhile isDigitChar
    if d.isEmpty then none else some d

/-- Maximal-munch embedding of the anchored prefix regex
`MEM\[(\d+)\]\s*=\s*(0X[0-9A-F]+|\d+)` with `re.IGNORECASE` from
`parsear_datos`; returns the address digits and the value token. -/
def matchDatos (l : List Char) : Option (List Char × List Char) :=
  match l with
  | [] => none
  | [_] => none
  | [_, _] => none
  | [_, _, _] => none
  | c1 :: c2 :: c3 :: c4 :: r =>
    if c1.toUpper = 'M' && c2.toUpper = 'E' && c3.toUpper = 'M' && c4 = '[' then
      let g1 := r.takeWhile isDigitChar
      let r1 := r.dropWhile isDigitChar
      if g1.isEmpty then none else
      match r1 with
      | ']' :: r2 =>
        match r2.dropWhile isSpaceChar with
        | '=' :: r4 =>
          match matchValor (r4.dropWhile isSpaceChar) with
          | some v => some (g1, v)
          | none => none
        | _ => none
      | _ => none
    else none

/-- Numeric value of one ASCII digit. -/
def digitVal (c : Char) : Nat := c.toNat - 48

/-- Python's `int(s)` on a nonempty string of ASCII digits. -/
def digitsToNat (l : List Char) : Nat :=
  l.foldl (fun a c => 10 * a + digitVal c) 0

/-- Numeric value of one ASCII hex digit (either case). -/
def hexVal (c : Char) : Nat :=
  if c.isDigit then c.toNat - 48
  else if c.val ≥ 97 then c.toNat - 87
  else c.toNat - 55

/-- Value of a nonempty string of ASCII hex digits. -/
def hexToNat (l : List Char) : Nat :=
  l.foldl (fun a c => 16 * a + hexVal c) 0

/-- Python's `int(s, 0)` on the tokens produced by `matchValor`: a
`0x`/`0X` prefix selects hexadecimal; a plain digit string is decimal but a
nonzero literal with a leading zero is rejected (`ValueError`), `none` here. -/
def pyIntBase0 (s : List Char) : Option Nat :=
  match s with
  | [] => none
  | [c] => some (digitsToNat [c])
  | z :: x :: rest =>
    if z = '0' then
      if x = 'X' || x = 'x' then some (hexToNat rest)
      else if (z :: x :: rest).all (fun c => c = '0') then some (digitsToNat (z :: x :: rest))
      else none
    else some (digitsToNat (z :: x :: rest))

/-- The two `ValueError`s the Python code can raise, told apart by their
message: the explicit unknown-mnemonic raise, and `int(valor_str, 0)` on a
bad literal. -/
inductive AsmErr where
  | unknownInstruction : String → AsmErr
  | badIntLiteral : String → AsmErr
deriving DecidableEq, Repr

deriving instance DecidableEq for Except

/-- The `OPCODES` table. -/
def OPCODES : List (String × Nat) :=
  [("ST", 0), ("LD", 1), ("ADD", 2), ("BR", 3), ("BZ", 4), ("CLR", 5), ("DEC", 6), ("HALT", 7)]

/-- Python's `f"{valor:03X}"`: at least three uppercase hex digits.  All
words produced by the encoder are below `0x1000`, so exactly three. -/
def hex3 (v : Nat) : String :=
  let ds := (Nat.toDigits 16 v).map Char.toUpper
  String.mk (List.replicate (3 - ds.length) '0' ++ ds)

/-- The packing formula `(opcode << 9) | (reg_bit << 8) | (dirm << 6) | (addr & 0x3F)`. -/
def valorInstr (opcode reg_bit dirm addr : Nat) : Nat :=
  (opcode <<< 9) ||| (reg_bit <<< 8) ||| (dirm <<< 6) ||| (addr &&& 0x3F)

/-- Body of `ensamblar_linea` after `linea.strip().upper()`: `None` models
Python's `None` (skip), `Except.error` the raised `ValueError`. -/
def ensamblarLineaNorm (l : List Char) : Except AsmErr (Option String) :=
  if l.isEmpty then Except.ok none
  else if l.take 1 = [';'] then Except.ok none
  else if l.take 4 = "HALT".data then Except.ok (some "0xE00, // HALT")
  else
    match matchInstr l with
    | none => Except.ok none
    | some (instrDs, regDs, addrDs) =>
      let instr := String.mk instrDs
      let reg := String.mk regDs
      let addr := digitsToNat addrDs
      match List.lookup instr OPCODES with
      | none => Except.error (AsmErr.unknownInstruction instr)
      | some opcode =>
        let reg_bit := if reg = "ACC" then 1 else 0
        let valor := valorInstr opcode reg_bit 0 addr
        Except.ok (some ("0x" ++ hex3 valor ++ ", // " ++ instr ++ " " ++ reg
          ++ ",[" ++ toString addr ++ "]"))

/-- `ensamblar_linea`: `linea.strip().upper()`, then the classifier. -/
def ensamblar_linea (linea : String) : Except AsmErr (Option String) :=
  ensamblarLineaNorm (pyUpper (pyStrip linea.data))

/-- Body of `parsear_datos` after `linea.strip()`: `None` models a
non-matching line, `Except.error` the `ValueError` that `int(valor_str, 0)`
raises on a bad decimal literal. -/
def parsearDatosNorm (l : List Char) : Except AsmErr (Option (Nat × Nat)) :=
  match matchDatos l with
  | none => Except.ok none
  | some (dirDs, valDs) =>
    let direccion := digitsToNat dirDs
    match pyIntBase0 valDs with
    | none => Except.error (AsmErr.badIntLiteral (String.mk valDs))
    | some valor => Except.ok (some (direccion, valor))

/-- `parsear_datos`: `linea.strip()`, then the directive matcher. -/
def parsear_datos (linea : String) : Except AsmErr (Option (Nat × Nat)) :=
  parsearDatosNorm (pyStrip linea.data)

/-- The accumulation loop of `ensamblar_archivo`: data directive first, then
instruction, appending to the two collections. -/
def procesarLineas : List String → List String → List (Nat × Nat) →
    Except AsmErr (List String × List (Nat × Nat))
  | [], instrucciones, datos => Except.ok (instrucciones, datos)
  | linea :: rest, instrucciones, datos =>
    match parsear_datos linea with
    | Except.error e => Except.error e
    | Except.ok (some dato) => procesarLineas rest instrucciones (datos ++ [dato])
    | Except.ok none =>
      match ensamblar_linea linea with
      | Except.error e => Except.error e
      | Except.ok (some cod) => procesarLineas rest (instrucciones ++ [cod]) datos
      | Except.ok none => procesarLineas rest instrucciones datos

/-- One rendered data line `f"{val}, // mem[{dir}]\n"` of `ensamblar_archivo`. -/
def fmtDato (dv : Nat × Nat) : String :=
  toString dv.2 ++ ", // mem[" ++ toString dv.1 ++ "]\n"

/-- `datos.sort(key=lambda x: x[0])`: stable sort ascending by address. -/
def sortDatos (datos : List (Nat × Nat)) : List (Nat × Nat) :=
  datos.insertionSort (fun a b => a.1 ≤ b.1)

/-- `ensamblar_archivo`, on the file's list of lines: accumulate, stably sort
the data by address, render, and `strip()` the result. -/
def ensamblar_archivo (lineas : List String) : Except AsmErr String :=
  match procesarLineas lineas [] [] with
  | Except.error e => Except.error e
  | Except.ok (instrucciones, datos) =>
    let datosOrd := sortDatos datos
    let salida := String.intercalate "\n" instrucciones ++ "\n\n"
      ++ String.join (datosOrd.map fmtDato)
    Except.ok (String.mk (pyStrip salida.data))

/-- Whether `parsear_datos` runs without raising (used to state where the
`int(valor_str, 0)` `ValueError` is excluded). -/
def parseOk (linea : String) : Bool :=
  match parsear_datos linea with
  | Except.ok _ => true
  | Except.error _ => false

/-- A line that, once stripped and uppercased, does not begin with `HALT`
but does match the two-operand pattern with a mnemonic outside `OPCODES` -
exactly the lines on which the classifier raises the unknown-instruction
`ValueError`. -/
def lineaDesconocida (linea : String) : Bool :=
  !((pyUpper (pyStrip linea.data)).take 4 == "HALT".data) &&
    (match matchInstr (pyUpper (pyStrip linea.data)) with
     | some (instrDs, _, _) => (List.lookup (String.mk instrDs) OPCODES).isNone
     | none => false)

/-- The instruction lines a run collects, in source order, described by a
single pass that ignores the data collection: the encodings of the lines the
data parser does not consume and the encoder accepts. -/
def instrsOf : List String → List String
  | [] => []
  | linea :: rest =>
    match parsear_datos linea, ensamblar_linea linea with
    | Except.ok none, Except.ok (some cod) => cod :: instrsOf rest
    | _, _ => instrsOf rest

/-- The data entries a run collects, in source order, described by a single
pass that ignores the instruction collection. -/
def datosOf : List String → List (Nat × Nat)
  | [] => []
  | linea :: rest =>
    match parsear_datos linea with
    | Except.ok (some dato) => dato :: datosOf rest
    | _ => datosOf rest

/-- One data line as the spec describes it, without the trailing newline. -/
def fmtDatoLinea (dv : Nat × Nat) : String :=
  toString dv.2 ++ ", // mem[" ++ toString dv.1 ++ "]"

/-- Modelled from the spec: the renderer as §4.3 words it - instruction
lines joined by newlines, then exactly one blank line, then one line per
data entry in the given order, the whole result trimmed of leading and
trailing whitespace. -/
def renderSpec (instrucciones : List String) (datos : List (Nat × Nat)) : String :=
  String.mk (pyStrip (String.intercalate "\n" instrucciones ++ "\n\n"
    ++ String.intercalate "\n" (datos.map fmtDatoLinea)).data)

/-! ### Character-class lemmas -/

lemma isSpaceChar_of_isWordChar {c : Char} (h : isWordChar c = true) :
    isSpaceChar c = false := by
  simp only [isWordChar, Bool.or_eq_true, Bool.and_eq_true, decide_eq_true_eq] at h
  simp only [isSpaceChar, Bool.or_eq_false_iff, decide_eq_false_iff_not]
  omega

lemma isWordChar_of_isDigitChar {c : Char} (h : isDigitChar c = true) :
    isWordChar c = true := by
  simp only [isDigitChar, Bool.and_eq_true, decide_eq_true_eq] at h
  simp only [isWordChar, Bool.or_eq_true, Bool.and_eq_true, decide_eq_true_eq]
  omega

lemma isSpaceChar_of_isDigitChar {c : Char} (h : isDigitChar c = true) :
    isSpaceChar c = false :=
  isSpaceChar_of_isWordChar (isWordChar_of_isDigitChar h)

lemma toUpper_of_isDigitChar {c : Char} (h : isDigitChar c = true) :
    c.toUpper = c := by
  simp only [isDigitChar, Bool.and_eq_true, decide_eq_true_eq] at h
  simp only [Char.toUpper]
  rw [if_neg]
  omega

lemma not_hexAlt_of_isDigitChar {c : Char} (h : isDigitChar c = true) :
    (decide (c = 'X') || decide (c = 'x')) = false := by
  apply Bool.or_eq_false_iff.mpr
  constructor <;> rw [decide_eq_false_iff_not] <;> rintro rfl <;> exact absurd h (by decide)

lemma isWordChar_space : isWordChar ' ' = false := by decide

lemma isWordChar_comma : isWordChar ',' = false := by decide

lemma isSpaceChar_space : isSpaceChar ' ' = true := by decide

lemma isSpaceChar_lbrack : isSpaceChar '[' = false := by decide

lemma isDigitChar_rbrack : isDigitChar ']' = false := by decide

/-! ### Strip lemmas -/

lemma pyStrip_eq_self {l : List Char} (h1 : l.dropWhile isSpaceChar = l)
    (h2 : l.reverse.dropWhile isSpaceChar = l.reverse) : pyStrip l = l := by
  simp [pyStrip, rstrip, h1, h2]

lemma rstrip_append_single {x : List Char} {c : Char} (h : isSpaceChar c = true) :
    rstrip (x ++ [c]) = rstrip x := by
  simp [rstrip, List.dropWhile_cons, h]

lemma pyStrip_append_single {x : List Char} {c : Char} (h : isSpaceChar c = true) :
    pyStrip (x ++ [c]) = pyStrip x := by
  unfold pyStrip
  rw [List.dropWhile_append]
  split
  · next hemp =>
      rw [List.isEmpty_iff] at hemp
      simp [rstrip, List.dropWhile_cons, h, hemp]
  · next hne => rw [rstrip_append_single h]

lemma pyStrip_append {p u : List Char} (hne : p ≠ [])
    (hhead : p.dropWhile isSpaceChar = p)
    (hlast : p.reverse.dropWhile isSpaceChar = p.reverse) :
    pyStrip (p ++ u) = p ++ rstrip u := by
  unfold pyStrip
  rw [List.dropWhile_append, if_neg (by simp [hhead, List.isEmpty_iff, hne]), hhead]
  unfold rstrip
  rw [List.reverse_append, List.dropWhile_append]
  split
  · next hemp =>
      rw [List.isEmpty_iff] at hemp
      rw [hlast, hemp]
      simp
  · next hne2 =>
      rw [List.reverse_append, List.reverse_reverse]

/-! ### Matcher characterizations -/

lemma matchInstr_build (m r ds t : List Char)
    (hm : m ≠ []) (hmw : ∀ c ∈ m, isWordChar c = true)
    (hr : r ≠ []) (hrw : ∀ c ∈ r, isWordChar c = true)
    (hd : ds ≠ []) (hdd : ∀ c ∈ ds, isDigitChar c = true) :
    matchInstr (m ++ ' ' :: (r ++ ',' :: '[' :: (ds ++ ']' :: t))) = some (m, r, ds) := by
  obtain ⟨a, m', rfl⟩ := List.exists_cons_of_ne_nil hm
  obtain ⟨c, r', rfl⟩ := List.exists_cons_of_ne_nil hr
  obtain ⟨d, ds', rfl⟩ := List.exists_cons_of_ne_nil hd
  have hcw : isWordChar c = true := hrw c (by simp)
  have hcs : isSpaceChar c = false := isSpaceChar_of_isWordChar hcw
  have hdd0 : isDigitChar d = true := hdd d (by simp)
  have hds : isSpaceChar d = false := isSpaceChar_of_isDigitChar hdd0
  have h1 : ((a :: m') ++ ' ' :: (c :: r' ++ ',' :: '[' :: (d :: ds' ++ ']' :: t))).takeWhile
      isWordChar = a :: m' := by
    rw [List.takeWhile_append_of_pos hmw, List.takeWhile_cons_of_neg (by simp [isWordChar_space])]
    simp
  have h2 : ((a :: m') ++ ' ' :: (c :: r' ++ ',' :: '[' :: (d :: ds' ++ ']' :: t))).dropWhile
      isWordChar = ' ' :: (c :: r' ++ ',' :: '[' :: (d :: ds' ++ ']' :: t)) := by
    rw [List.dropWhile_append_of_pos hmw, List.dropWhile_cons_of_neg (by simp [isWordChar_space])]
  have h3 : (' ' :: (c :: r' ++ ',' :: '[' :: (d :: ds' ++ ']' :: t))).takeWhile isSpaceChar
      = ' ' :: [] := by
    rw [List.takeWhile_cons_of_pos (by simp [isSpaceChar_space]), List.cons_append,
      List.takeWhile_cons_of_neg (by simp [hcs])]
  have h4 : (' ' :: (c :: r' ++ ',' :: '[' :: (d :: ds' ++ ']' :: t))).dropWhile isSpaceChar
      = c :: r' ++ ',' :: '[' :: (d :: ds' ++ ']' :: t) := by
    rw [List.dropWhile_cons_of_pos (by simp [isSpaceChar_space]), List.cons_append,
      List.dropWhile_cons_of_neg (by simp [hcs])]
  have h5 : ((c :: r') ++ ',' :: '[' :: (d :: ds' ++ ']' :: t)).takeWhile isWordChar
      = c :: r' := by
    rw [List.takeWhile_append_of_pos hrw, List.takeWhile_cons_of_neg (by simp [isWordChar_comma])]
    simp
  have h6 : ((c :: r') ++ ',' :: '[' :: (d :: ds' ++ ']' :: t)).dropWhile isWordChar
      = ',' :: '[' :: (d :: ds' ++ ']' :: t) := by
    rw [List.dropWhile_append_of_pos hrw, List.dropWhile_cons_of_neg (by simp [isWordChar_comma])]
  have h7 : ('[' :: (d :: ds' ++ ']' :: t)).dropWhile isSpaceChar
      = '[' :: (d :: ds' ++ ']' :: t) := by
    rw [List.dropWhile_cons_of_neg (by simp [isSpaceChar_lbrack])]
  have h8 : ((d :: ds') ++ ']' :: t).takeWhile isDigitChar = d :: ds' := by
    rw [List.takeWhile_append_of_pos hdd, List.takeWhile_cons_of_neg (by simp [isDigitChar_rbrack])]
    simp
  have h9 : ((d :: ds') ++ ']' :: t).dropWhile isDigitChar = ']' :: t := by
    rw [List.dropWhile_append_of_pos hdd, List.dropWhile_cons_of_neg (by simp [isDigitChar_rbrack])]
  simp only [matchInstr, List.cons_append, List.nil_append] at h1 h2 h3 h4 h5 h6 h7 h8 h9 ⊢
  rw [h1, h2]
  simp only [List.isEmpty_cons, h3, h4, h5, h6, h7, h8, h9]
  simp [h5, h6, h7, h8, h9]

lemma takeWhile_of_all {p : Char → Bool} {l : List Char} (h : ∀ c ∈ l, p c = true) :
    l.takeWhile p = l := by
  conv_lhs => rw [← List.append_nil l]
  rw [List.takeWhile_append_of_pos h]
  simp

lemma matchValor_digits {vs : List Char} (hv : vs ≠ [])
    (hvd : ∀ c ∈ vs, isDigitChar c = true) :
    matchValor vs = some vs := by
  have hts : vs.takeWhile isDigitChar = vs := takeWhile_of_all hvd
  match vs, hv with
  | [c], _ =>
    simp only [matchValor, hts]
    simp [List.isEmpty_iff]
  | z :: x :: rest, _ =>
    have hx : isDigitChar x = true := hvd x (by simp)
    simp only [matchValor, not_hexAlt_of_isDigitChar hx, Bool.and_false, Bool.false_and,
      Bool.and_eq_true, hts]
    simp [List.isEmpty_iff]

lemma matchValor_hex {x : Char} {hs : List Char} (hx : x = 'X' ∨ x = 'x') (hh : hs ≠ [])
    (hhd : ∀ c ∈ hs, isHexChar c = true) :
    matchValor ('0' :: x :: hs) = some ('0' :: x :: hs) := by
  have hts : hs.takeWhile isHexChar = hs := takeWhile_of_all hhd
  simp only [matchValor, hts]
  rcases hx with rfl | rfl <;> simp [List.isEmpty_iff, hh]

lemma matchDatos_build (ds rest : List Char) (hd : ds ≠ [])
    (hdd : ∀ c ∈ ds, isDigitChar c = true) :
    matchDatos ('M' :: 'E' :: 'M' :: '[' :: (ds ++ ']' :: ' ' :: '=' :: ' ' :: rest))
      = Option.map (fun v => (ds, v)) (matchValor (rest.dropWhile isSpaceChar)) := by
  obtain ⟨d, ds', rfl⟩ := List.exists_cons_of_ne_nil hd
  have h8 : ((d :: ds') ++ ']' :: ' ' :: '=' :: ' ' :: rest).takeWhile isDigitChar
      = d :: ds' := by
    rw [List.takeWhile_append_of_pos hdd, List.takeWhile_cons_of_neg (by simp [isDigitChar_rbrack])]
    simp
  have h9 : ((d :: ds') ++ ']' :: ' ' :: '=' :: ' ' :: rest).dropWhile isDigitChar
      = ']' :: ' ' :: '=' :: ' ' :: rest := by
    rw [List.dropWhile_append_of_pos hdd, List.dropWhile_cons_of_neg (by simp [isDigitChar_rbrack])]
  simp only [matchDatos, h8, h9]
  rw [if_pos (by decide)]
  simp only [List.isEmpty_cons, List.dropWhile_cons_of_pos (isSpaceChar_space),
    List.dropWhile_cons_of_neg (by decide : ¬ isSpaceChar '=' = true)]
  simp only [Bool.false_eq_true, if_false]
  cases matchValor (rest.dropWhile isSpaceChar) <;> rfl

lemma pyIntBase0_of_head_ne {c : Char} (cs : List Char) (h0 : c ≠ '0') :
    pyIntBase0 (c :: cs) = some (digitsToNat (c :: cs)) := by
  cases cs with
  | nil => rfl
  | cons x rest => simp [pyIntBase0, h0]

lemma pyIntBase0_hex {x : Char} (hs : List Char) (hx : x = 'X' ∨ x = 'x') :
    pyIntBase0 ('0' :: x :: hs) = some (hexToNat hs) := by
  rcases hx with rfl | rfl <;> simp [pyIntBase0]

lemma data_append (a b : String) : (a ++ b).data = a.data ++ b.data := by
  cases a; cases b; rfl

lemma pyUpper_fixed {l : List Char} (h : ∀ c ∈ l, c.toUpper = c) : pyUpper l = l := by
  simp only [pyUpper]
  exact (List.map_congr_left h).trans (List.map_id _)

/-- The classifier body on a well-formed two-operand line that does not
begin with `HALT`: look the mnemonic up and either raise or encode. -/
lemma ensamblarLineaNorm_build (m r ds t : List Char)
    (hm : m ≠ []) (hmw : ∀ c ∈ m, isWordChar c = true)
    (hH : ¬ (m ++ ' ' :: (r ++ ',' :: '[' :: (ds ++ ']' :: t))).take 4 = "HALT".data)
    (hr : r ≠ []) (hrw : ∀ c ∈ r, isWordChar c = true)
    (hd : ds ≠ []) (hdd : ∀ c ∈ ds, isDigitChar c = true) :
    ensamblarLineaNorm (m ++ ' ' :: (r ++ ',' :: '[' :: (ds ++ ']' :: t)))
      = (match List.lookup (String.mk m) OPCODES with
         | none => Except.error (AsmErr.unknownInstruction (String.mk m))
         | some opcode => Except.ok (some ("0x"
             ++ hex3 (valorInstr opcode (if String.mk r = "ACC" then 1 else 0) 0 (digitsToNat ds))
             ++ ", // " ++ String.mk m ++ " " ++ String.mk r
             ++ ",[" ++ toString (digitsToNat ds) ++ "]"))) := by
  have hmatch := matchInstr_build m r ds t hm hmw hr hrw hd hdd
  obtain ⟨a, m', rfl⟩ := List.exists_cons_of_ne_nil hm
  have hsemi : ¬ ((a :: m') ++ ' ' :: (r ++ ',' :: '[' :: (ds ++ ']' :: t))).take 1 = [';'] := by
    intro hcon
    simp only [List.cons_append, List.take_succ_cons, List.take_zero] at hcon
    have : a = ';' := by simpa using hcon
    subst this
    have := hmw ';' (by simp)
    exact absurd this (by decide)
  unfold ensamblarLineaNorm
  rw [if_neg (by simp), if_neg hsemi, if_neg hH, hmatch]

/-- Stripping and uppercasing leave a well-formed two-operand line alone
when its register token is already uppercase and its tail is empty. -/
lemma norm_build (m r ds : List Char)
    (hm : m ≠ []) (hmw : ∀ c ∈ m, isWordChar c = true ∧ c.toUpper = c)
    (hr : r ≠ []) (hrw : ∀ c ∈ r, isWordChar c = true ∧ c.toUpper = c)
    (hd : ds ≠ []) (hdd : ∀ c ∈ ds, isDigitChar c = true) :
    pyUpper (pyStrip (m ++ ' ' :: (r ++ ',' :: '[' :: (ds ++ ']' :: []))))
      = m ++ ' ' :: (r ++ ',' :: '[' :: (ds ++ ']' :: [])) := by
  obtain ⟨a, m', rfl⟩ := List.exists_cons_of_ne_nil hm
  have haw : isWordChar a = true := (hmw a (by simp)).1
  have hstrip : pyStrip ((a :: m') ++ ' ' :: (r ++ ',' :: '[' :: (ds ++ ']' :: [])))
      = (a :: m') ++ ' ' :: (r ++ ',' :: '[' :: (ds ++ ']' :: [])) := by
    apply pyStrip_eq_self
    · rw [List.cons_append, List.dropWhile_cons_of_neg (by simp [isSpaceChar_of_isWordChar haw])]
    · have hrev : ((a :: m') ++ ' ' :: (r ++ ',' :: '[' :: (ds ++ ']' :: []))).reverse
          = ']' :: ((ds.reverse ++ '[' :: ',' :: r.reverse) ++ ' ' :: (a :: m').reverse) := by
        simp
      rw [hrev, List.dropWhile_cons_of_neg (by decide)]
  rw [hstrip]
  apply pyUpper_fixed
  intro c hc
  simp only [List.cons_append, List.mem_cons, List.mem_append] at hc
  rcases hc with rfl | hc
  · exact (hmw c (by simp)).2
  rcases hc with hc | hc
  · exact (hmw c (by simp [hc])).2
  rcases hc with rfl | hc
  · decide
  rcases hc with hc | hc
  · exact (hrw c hc).2
  rcases hc with rfl | hc
  · decide
  rcases hc with rfl | hc
  · decide
  rcases hc with hc | hc
  · exact toUpper_of_isDigitChar (hdd c hc)
  · simp only [List.mem_cons, List.not_mem_nil, or_false] at hc
    subst hc
    decide

/-- The encoder on a full two-operand source line built from an uppercase
mnemonic, an uppercase register token and an address digit string. -/
lemma ensamblar_linea_build (m r ds : List Char)
    (hm : m ≠ []) (hmw : ∀ c ∈ m, isWordChar c = true ∧ c.toUpper = c)
    (hH : ¬ (m ++ ' ' :: (r ++ ',' :: '[' :: (ds ++ ']' :: []))).take 4 = "HALT".data)
    (hr : r ≠ []) (hrw : ∀ c ∈ r, isWordChar c = true ∧ c.toUpper = c)
    (hd : ds ≠ []) (hdd : ∀ c ∈ ds, isDigitChar c = true) :
    ensamblar_linea (String.mk (m ++ ' ' :: (r ++ ',' :: '[' :: (ds ++ ']' :: []))))
      = (match List.lookup (String.mk m) OPCODES with
         | none => Except.error (AsmErr.unknownInstruction (String.mk m))
         | some opcode => Except.ok (some ("0x"
             ++ hex3 (valorInstr opcode (if String.mk r = "ACC" then 1 else 0) 0 (digitsToNat ds))
             ++ ", // " ++ String.mk m ++ " " ++ String.mk r
             ++ ",[" ++ toString (digitsToNat ds) ++ "]"))) := by
  unfold ensamblar_linea
  rw [show (String.mk (m ++ ' ' :: (r ++ ',' :: '[' :: (ds ++ ']' :: [])))).data
      = m ++ ' ' :: (r ++ ',' :: '[' :: (ds ++ ']' :: [])) from rfl]
  rw [norm_build m r ds hm hmw hr hrw hd hdd]
  exact ensamblarLineaNorm_build m r ds [] hm (fun c hc => (hmw c hc).1) hH hr
    (fun c hc => (hrw c hc).1) hd hdd

lemma pyStrip_eq_self_of_ends {l : List Char} (hne : l ≠ [])
    (hhead : ∀ c ∈ l.take 1, isSpaceChar c = false)
    (hlastc : ∀ c ∈ l.reverse.take 1, isSpaceChar c = false) :
    pyStrip l = l := by
  apply pyStrip_eq_self
  · obtain ⟨a, l', rfl⟩ := List.exists_cons_of_ne_nil hne
    rw [List.dropWhile_cons_of_neg (by simp [hhead a (by simp)])]
  · obtain ⟨a, w, hw⟩ := List.exists_cons_of_ne_nil
      (show l.reverse ≠ [] by simpa using hne)
    rw [hw, List.dropWhile_cons_of_neg (by simp [hlastc a (by simp [hw])])]

lemma reverse_take_one_no_space {pre tok : List Char} (ht : tok ≠ [])
    (hts : ∀ c ∈ tok, isSpaceChar c = false) :
    ∀ c ∈ ((pre ++ tok).reverse.take 1), isSpaceChar c = false := by
  intro c hc
  obtain ⟨a, w, hw⟩ := List.exists_cons_of_ne_nil
    (show tok.reverse ≠ [] by simpa using ht)
  have ha : a ∈ tok := by
    rw [← List.mem_reverse, hw]
    simp
  rw [List.reverse_append, hw] at hc
  simp only [List.cons_append, List.take_succ_cons, List.take_zero,
    List.mem_singleton] at hc
  rw [hc]
  exact hts a ha

/-! ### Claims -/

/-- C1 (amended): for every source line of the two-operand form
`<MNEMONIC> <REGISTER>,[<ADDRESS>]` whose mnemonic is one of the 7
recognized names other than `HALT`, the encoder produces the word
`(opcode << 9) | (reg_bit << 8) | (0 << 6) | (address & 0x3F)`, with
`reg_bit = 1` exactly when the register token is `ACC` (any other register
token silently gives 0).  A `HALT`-mnemonic line is intercepted by the
`HALT`-prefix rule first, so it is excluded here. -/
theorem assembler_C1 (M : String) (r ds : List Char)
    (hM : M ∈ ["ST", "LD", "ADD", "BR", "BZ", "CLR", "DEC"])
    (hr : r ≠ []) (hrw : ∀ c ∈ r, isWordChar c = true ∧ c.toUpper = c)
    (hd : ds ≠ []) (hdd : ∀ c ∈ ds, isDigitChar c = true) :
    ensamblar_linea (String.mk (M.data ++ ' ' :: (r ++ ',' :: '[' :: (ds ++ ']' :: []))))
      = Except.ok (some ("0x"
          ++ hex3 (valorInstr ((List.lookup M OPCODES).getD 0)
              (if String.mk r = "ACC" then 1 else 0) 0 (digitsToNat ds))
          ++ ", // " ++ M ++ " " ++ String.mk r
          ++ ",[" ++ toString (digitsToNat ds) ++ "]")) := by
  simp only [List.mem_cons, List.not_mem_nil, or_false] at hM
  rcases hM with rfl | rfl | rfl | rfl | rfl | rfl | rfl <;>
  · rw [ensamblar_linea_build _ r ds (by decide) (by decide) (by simp) hr hrw hd hdd]
    rfl

/-- Witness for C1 at `LD ACC,[7]`. -/
theorem assembler_C1_witness :
    ensamblar_linea "LD ACC,[7]" = Except.ok (some "0x307, // LD ACC,[7]") := by
  have h := assembler_C1 "LD" ['A', 'C', 'C'] ['7'] (by decide) (by decide)
    (by decide) (by decide) (by decide)
  exact h

/-- C2 (counterexample): the claim's example values are wrong on the code -
`LD ACC,[0]` encodes to `0x300`, not `0x100` (the claim's own formula
`(O << 9) | (1 << 8)` with `O = 1` gives `0x300`) - and for `M = HALT` the
formula itself fails, because the `HALT`-prefix rule emits the fixed word
`0xE00`, not `(7 << 9) | (1 << 8) = 0xF00`. -/
theorem assembler_C2_counterexample :
    ensamblar_linea "LD ACC,[0]" = Except.ok (some "0x300, // LD ACC,[0]")
    ∧ ensamblar_linea "LD ACC,[0]" ≠ Except.ok (some "0x100, // LD ACC,[0]")
    ∧ ensamblar_linea "ST ACC,[0]" = Except.ok (some "0x100, // ST ACC,[0]")
    ∧ ensamblar_linea "ST ACC,[0]" ≠ Except.ok (some "0x000, // ST ACC,[0]")
    ∧ ensamblar_linea "HALT ACC,[0]" = Except.ok (some "0xE00, // HALT")
    ∧ ensamblar_linea "HALT ACC,[0]"
        ≠ Except.ok (some ("0x" ++ hex3 ((7 <<< 9) ||| (1 <<< 8)) ++ ", // HALT ACC,[0]")) := by
  refine ⟨by decide, by decide, by decide, by decide, by decide, by decide⟩

/-- C2 (amended): for each of the 7 recognized mnemonics other than `HALT`,
with opcode `O`, encoding `M ACC,[0]` yields the word `(O << 9) | (1 << 8)`;
in particular `LD ACC,[0]` encodes to `0x300` and `ST ACC,[0]` to `0x100`;
the line `HALT ACC,[0]` is intercepted by the `HALT` rule and encodes to the
fixed word `0xE00`. -/
theorem assembler_C2 :
    ensamblar_linea "ST ACC,[0]"
      = Except.ok (some ("0x" ++ hex3 ((0 <<< 9) ||| (1 <<< 8)) ++ ", // ST ACC,[0]"))
    ∧ ensamblar_linea "LD ACC,[0]"
      = Except.ok (some ("0x" ++ hex3 ((1 <<< 9) ||| (1 <<< 8)) ++ ", // LD ACC,[0]"))
    ∧ ensamblar_linea "ADD ACC,[0]"
      = Except.ok (some ("0x" ++ hex3 ((2 <<< 9) ||| (1 <<< 8)) ++ ", // ADD ACC,[0]"))
    ∧ ensamblar_linea "BR ACC,[0]"
      = Except.ok (some ("0x" ++ hex3 ((3 <<< 9) ||| (1 <<< 8)) ++ ", // BR ACC,[0]"))
    ∧ ensamblar_linea "BZ ACC,[0]"
      = Except.ok (some ("0x" ++ hex3 ((4 <<< 9) ||| (1 <<< 8)) ++ ", // BZ ACC,[0]"))
    ∧ ensamblar_linea "CLR ACC,[0]"
      = Except.ok (some ("0x" ++ hex3 ((5 <<< 9) ||| (1 <<< 8)) ++ ", // CLR ACC,[0]"))
    ∧ ensamblar_linea "DEC ACC,[0]"
      = Except.ok (some ("0x" ++ hex3 ((6 <<< 9) ||| (1 <<< 8)) ++ ", // DEC ACC,[0]"))
    ∧ ensamblar_linea "LD ACC,[0]" = Except.ok (some "0x300, // LD ACC,[0]")
    ∧ ensamblar_linea "ST ACC,[0]" = Except.ok (some "0x100, // ST ACC,[0]")
    ∧ ensamblar_linea "HALT ACC,[0]" = Except.ok (some "0xE00, // HALT") := by
  refine ⟨by decide, by decide, by decide, by decide, by decide, by decide, by decide,
    by decide, by decide, by decide⟩

/-- C6 (counterexample): `MEM[3] = 010` does not parse as decimal 10 - the
value token `010` makes `int(valor_str, 0)` raise `ValueError` (Python
forbids leading zeros in a nonzero base-0 decimal literal), aborting the
run. -/
theorem assembler_C6_counterexample :
    parsear_datos "MEM[3] = 010" = Except.error (AsmErr.badIntLiteral "010")
    ∧ parsear_datos "MEM[3] = 010" ≠ Except.ok (some (3, 10)) := by
  refine ⟨by decide, by decide⟩

/-- C6 (amended): for `MEM[<address>] = <value>` lines, a `0x`/`0X` prefix
on the value selects hexadecimal and a decimal value token without a leading
zero parses as decimal; `MEM[3] = 0x0A` and `MEM[3] = 10` both parse to
`(3, 10)`; but a nonzero decimal token with a leading zero is not parsed -
it raises `ValueError` (see the counterexample), so the no-octal-inference
wording only holds for tokens without leading zeros. -/
theorem assembler_C6 (ds vs : List Char)
    (hd : ds ≠ []) (hdd : ∀ c ∈ ds, isDigitChar c = true)
    (hv : vs ≠ []) (hvd : ∀ c ∈ vs, isDigitChar c = true) (h0 : vs.head? ≠ some '0') :
    parsear_datos (String.mk ('M' :: 'E' :: 'M' :: '[' :: (ds ++ ']' :: ' ' :: '=' :: ' ' :: vs)))
      = Except.ok (some (digitsToNat ds, digitsToNat vs))
    ∧ (∀ (x : Char) (hs : List Char), (x = 'X' ∨ x = 'x') → hs ≠ [] →
        (∀ c ∈ hs, isHexChar c = true) →
        parsear_datos (String.mk ('M' :: 'E' :: 'M' :: '['
            :: (ds ++ ']' :: ' ' :: '=' :: ' ' :: ('0' :: x :: hs))))
          = Except.ok (some (digitsToNat ds, hexToNat hs)))
    ∧ parsear_datos "MEM[3] = 0x0A" = Except.ok (some (3, 10))
    ∧ parsear_datos "MEM[3] = 10" = Except.ok (some (3, 10)) := by
  obtain ⟨v0, vs', rfl⟩ := List.exists_cons_of_ne_nil hv
  have hv0 : isDigitChar v0 = true := hvd v0 (by simp)
  refine ⟨?dec, ?hex, by decide, by decide⟩
  case dec =>
    unfold parsear_datos
    rw [show (String.mk ('M' :: 'E' :: 'M' :: '['
        :: (ds ++ ']' :: ' ' :: '=' :: ' ' :: (v0 :: vs')))).data
      = 'M' :: 'E' :: 'M' :: '[' :: (ds ++ ']' :: ' ' :: '=' :: ' ' :: (v0 :: vs')) from rfl]
    have hshape : ('M' :: 'E' :: 'M' :: '[' :: (ds ++ ']' :: ' ' :: '=' :: ' ' :: (v0 :: vs')))
        = ('M' :: 'E' :: 'M' :: '[' :: (ds ++ [']', ' ', '=', ' '])) ++ (v0 :: vs') := by
      simp
    have hstrip : pyStrip ('M' :: 'E' :: 'M' :: '['
        :: (ds ++ ']' :: ' ' :: '=' :: ' ' :: (v0 :: vs')))
        = 'M' :: 'E' :: 'M' :: '[' :: (ds ++ ']' :: ' ' :: '=' :: ' ' :: (v0 :: vs')) := by
      rw [hshape]
      refine pyStrip_eq_self_of_ends (by simp) ?_ ?_
      · intro c hc
        simp only [List.cons_append, List.take_succ_cons, List.take_zero,
          List.mem_singleton] at hc
        subst hc
        decide
      · exact reverse_take_one_no_space (by simp)
          (fun c hc => isSpaceChar_of_isDigitChar (hvd c hc))
    rw [hstrip]
    unfold parsearDatosNorm
    rw [matchDatos_build ds (v0 :: vs') hd hdd]
    rw [List.dropWhile_cons_of_neg (by simp [isSpaceChar_of_isDigitChar hv0])]
    rw [matchValor_digits (by simp) hvd]
    have h00 : v0 ≠ '0' := by
      intro hcon
      exact h0 (by simp [hcon])
    simp [pyIntBase0_of_head_ne vs' h00]
  case hex =>
    intro x hs hx hh hhd
    unfold parsear_datos
    rw [show (String.mk ('M' :: 'E' :: 'M' :: '['
        :: (ds ++ ']' :: ' ' :: '=' :: ' ' :: ('0' :: x :: hs)))).data
      = 'M' :: 'E' :: 'M' :: '[' :: (ds ++ ']' :: ' ' :: '=' :: ' ' :: ('0' :: x :: hs))
      from rfl]
    have hshape : ('M' :: 'E' :: 'M' :: '['
        :: (ds ++ ']' :: ' ' :: '=' :: ' ' :: ('0' :: x :: hs)))
        = ('M' :: 'E' :: 'M' :: '[' :: (ds ++ [']', ' ', '=', ' '])) ++ ('0' :: x :: hs) := by
      simp
    have hstrip : pyStrip ('M' :: 'E' :: 'M' :: '['
        :: (ds ++ ']' :: ' ' :: '=' :: ' ' :: ('0' :: x :: hs)))
        = 'M' :: 'E' :: 'M' :: '[' :: (ds ++ ']' :: ' ' :: '=' :: ' ' :: ('0' :: x :: hs)) := by
      rw [hshape]
      refine pyStrip_eq_self_of_ends (by simp) ?_ ?_
      · intro c hc
        simp only [List.cons_append, List.take_succ_cons, List.take_zero,
          List.mem_singleton] at hc
        subst hc
        decide
      · refine reverse_take_one_no_space (by simp) ?_
        intro c hc
        simp only [List.mem_cons] at hc
        rcases hc with rfl | rfl | hc
        · decide
        · rcases hx with rfl | rfl <;> decide
        · have := hhd c hc
          simp only [isHexChar, Bool.or_eq_true, Bool.and_eq_true,
            decide_eq_true_eq] at this
          simp only [isSpaceChar, Bool.or_eq_false_iff, decide_eq_false_iff_not]
          omega
    rw [hstrip]
    unfold parsearDatosNorm
    rw [matchDatos_build ds ('0' :: x :: hs) hd hdd]
    rw [List.dropWhile_cons_of_neg (by decide)]
    rw [matchValor_hex hx hh hhd]
    simp [pyIntBase0_hex hs hx]

/-- Witness for C6 at `MEM[42] = 777` (decimal) and a hex instance. -/
theorem assembler_C6_witness :
    parsear_datos "MEM[42] = 777" = Except.ok (some (42, 777)) := by
  have h := (assembler_C6 ['4', '2'] ['7', '7', '7'] (by decide) (by decide)
    (by decide) (by decide) (by decide)).1
  exact h

/-- C7: the low 6 bits of the packed word equal `addr & 0x3F` - exact for
addresses below 64, silent truncation above, never an error - and
`LD ACC,[64]` encodes to the same word `0x300` as `LD ACC,[0]`. -/
theorem assembler_C7 :
    (∀ opcode reg_bit a, valorInstr opcode reg_bit 0 a % 64 = a % 64)
    ∧ (∀ opcode reg_bit a, a < 64 → valorInstr opcode reg_bit 0 a % 64 = a)
    ∧ ensamblar_linea "LD ACC,[64]" = Except.ok (some "0x300, // LD ACC,[64]")
    ∧ ensamblar_linea "LD ACC,[0]" = Except.ok (some "0x300, // LD ACC,[0]") := by
  have h63 : ∀ x : Nat, x &&& 63 = x % 64 := fun x => by
    simpa using Nat.and_pow_two_sub_one_eq_mod x 6
  have key : ∀ opcode reg_bit a, valorInstr opcode reg_bit 0 a % 64 = a % 64 := by
    intro op rb a
    have h1 : valorInstr op rb 0 a &&& 63 = a &&& 63 := by
      unfold valorInstr
      rw [show (0x3F : Nat) = 63 from rfl]
      rw [Nat.and_distrib_right, Nat.and_distrib_right, Nat.and_distrib_right]
      have e1 : (op <<< 9) &&& 63 = 0 := by
        rw [h63, Nat.shiftLeft_eq, Nat.mul_mod]
        simp
      have e2 : (rb <<< 8) &&& 63 = 0 := by
        rw [h63, Nat.shiftLeft_eq, Nat.mul_mod]
        simp
      have e3 : ((0 : Nat) <<< 6) &&& 63 = 0 := by decide
      have e4 : (a &&& 63) &&& 63 = a &&& 63 := by
        rw [Nat.and_assoc]
        norm_num
      rw [e1, e2, e3, e4]
      simp
    calc valorInstr op rb 0 a % 64 = valorInstr op rb 0 a &&& 63 := (h63 _).symm
      _ = a &&& 63 := h1
      _ = a % 64 := h63 a
  refine ⟨key, fun op rb a ha => ?_, by decide, by decide⟩
  rw [key op rb a, Nat.mod_eq_of_lt ha]

/-- Witness for C7 at concrete operands: address 5 is preserved, address 64
truncates to the bits of address 0. -/
theorem assembler_C7_witness :
    valorInstr 1 1 0 5 % 64 = 5 ∧ valorInstr 1 1 0 64 % 64 = 64 % 64 :=
  ⟨assembler_C7.2.1 1 1 5 (by decide), assembler_C7.1 1 1 64⟩

/-- C9: any line whose stripped, uppercased text begins with `HALT` -
with or without trailing operands or extra characters - encodes to the
fixed output `0xE00, // HALT` and never errors. -/
theorem assembler_C9 (linea : String)
    (h : (pyUpper (pyStrip linea.data)).take 4 = "HALT".data) :
    ensamblar_linea linea = Except.ok (some "0xE00, // HALT") := by
  unfold ensamblar_linea
  generalize pyUpper (pyStrip linea.data) = L at h ⊢
  have hne : L ≠ [] := by
    rintro rfl
    simp at h
  obtain ⟨a, L', rfl⟩ := List.exists_cons_of_ne_nil hne
  have ha : a = 'H' := by
    rw [show ("HALT".data : List Char) = ['H', 'A', 'L', 'T'] from rfl] at h
    simp only [List.take_succ_cons] at h
    injection h with h1 h2
  subst ha
  unfold ensamblarLineaNorm
  rw [if_neg (by simp), if_neg (by simp), if_pos h]

/-- Witness for C9: a `HALT` line with operands and a `HALTX` line both
collapse to the fixed `HALT` output. -/
theorem assembler_C9_witness :
    ensamblar_linea "  halt ACC,[5] junk" = Except.ok (some "0xE00, // HALT")
    ∧ ensamblar_linea "HALTX" = Except.ok (some "0xE00, // HALT") :=
  ⟨assembler_C9 _ (by decide), assembler_C9 _ (by decide)⟩

/-- C1 (counterexample): `HALT ACC,[3]` is a line of the two-operand form
whose mnemonic `HALT` is one of the 8 recognized names, yet the encoder
does not produce the packing-formula word `(7<<9)|(1<<8)|3 = 0xF03` - the
`HALT`-prefix rule intercepts the line first and emits the fixed
`0xE00, // HALT`. -/
theorem assembler_C1_counterexample :
    ensamblar_linea "HALT ACC,[3]" = Except.ok (some "0xE00, // HALT")
    ∧ ensamblar_linea "HALT ACC,[3]"
        ≠ Except.ok (some ("0x" ++ hex3 (valorInstr 7 1 0 3) ++ ", // HALT ACC,[3]")) := by
  refine ⟨by decide, by decide⟩

lemma pyUpper_append (a b : List Char) : pyUpper (a ++ b) = pyUpper a ++ pyUpper b :=
  List.map_append _ _ _

lemma procesar_skip (l : String) (hpd : parsear_datos l = Except.ok none)
    (hel : ensamblar_linea l = Except.ok none) :
    ∀ xs ys a1 a2, procesarLineas (xs ++ l :: ys) a1 a2 = procesarLineas (xs ++ ys) a1 a2 := by
  intro xs
  induction xs with
  | nil =>
    intro ys a1 a2
    simp [procesarLineas, hpd, hel]
  | cons x xs ih =>
    intro ys a1 a2
    simp only [List.cons_append, procesarLineas]
    cases hx : parsear_datos x with
    | error e => rfl
    | ok o =>
      cases o with
      | some d => simp [ih]
      | none =>
        cases he : ensamblar_linea x with
        | error e => rfl
        | ok o2 => cases o2 <;> simp [ih]

/-- C8: a line that matches neither the data-directive form nor any
instruction form (blank lines, `;` comments, malformed directives,
unmatched instruction syntax) raises no error and contributes nothing:
deleting it from the input leaves the whole run's result unchanged. -/
theorem assembler_C8 (xs ys : List String) (l : String)
    (hpd : parsear_datos l = Except.ok none)
    (hel : ensamblar_linea l = Except.ok none) :
    ensamblar_archivo (xs ++ l :: ys) = ensamblar_archivo (xs ++ ys) := by
  unfold ensamblar_archivo
  rw [procesar_skip l hpd hel xs ys [] []]

/-- Witness for C8: dropping a comment line between an instruction and a
data directive does not change the output. -/
theorem assembler_C8_witness :
    ensamblar_archivo ["LD ACC,[1]", "; comment", "MEM[2] = 3"]
      = ensamblar_archivo ["LD ACC,[1]", "MEM[2] = 3"] :=
  assembler_C8 ["LD ACC,[1]"] ["MEM[2] = 3"] "; comment" (by decide) (by decide)

lemma rstrip_head (c : Char) (cs : List Char) :
    rstrip (c :: cs) = [] ∨ ∃ w, rstrip (c :: cs) = c :: w := by
  unfold rstrip
  rw [List.reverse_cons, List.dropWhile_append]
  split
  · cases hsp : isSpaceChar c
    · right
      exact ⟨[], by simp [List.dropWhile_cons, hsp]⟩
    · left
      simp [List.dropWhile_cons, hsp]
  · right
    exact ⟨(cs.reverse.dropWhile isSpaceChar).reverse, by simp⟩

lemma matchValor_head_digit {c : Char} (cs : List Char)
    (hc : isDigitChar c = true) (h0 : c ≠ '0') :
    matchValor (c :: cs) = some (c :: cs.takeWhile isDigitChar) := by
  cases cs with
  | nil => simp [matchValor, List.takeWhile_cons, hc]
  | cons x rest =>
    simp only [matchValor]
    rw [if_neg (by simp [h0])]
    simp [List.takeWhile_cons, hc]

/-- C10 (counterexample): trailing text is not always ignored - appending
`7` to the valid form `MEM[3] = 5` extends the greedy value token, so
`MEM[3] = 57` parses to `(3, 57)`, not to the original `(3, 5)`. -/
theorem assembler_C10_counterexample :
    parsear_datos "MEM[3] = 57" = Except.ok (some (3, 57))
    ∧ parsear_datos "MEM[3] = 5" = Except.ok (some (3, 5))
    ∧ parsear_datos ("MEM[3] = 5" ++ "7") ≠ parsear_datos "MEM[3] = 5" := by
  refine ⟨by decide, by decide, by decide⟩

/-- C10 (amended): both recognizers match only a prefix of the line.  After
a complete instruction form every suffix is ignored (`LD ACC,[2] extra`
encodes like `LD ACC,[2]`), because the closing bracket ends every token;
after a data form a suffix is ignored provided its first character does not
extend the final greedy value token (`MEM[3] = 5 extra` parses like
`MEM[3] = 5`, but a digit suffix changes the value). -/
theorem assembler_C10 :
    (∀ s : String, ensamblar_linea ("LD ACC,[2]" ++ s) = ensamblar_linea "LD ACC,[2]")
    ∧ (∀ s : String, (∀ c ∈ s.data.take 1, isDigitChar c = false) →
        parsear_datos ("MEM[3] = 5" ++ s) = parsear_datos "MEM[3] = 5") := by
  constructor
  · intro s
    unfold ensamblar_linea
    rw [data_append,
      show ("LD ACC,[2]".data : List Char)
        = ['L', 'D', ' ', 'A', 'C', 'C', ',', '[', '2', ']'] from rfl]
    rw [pyStrip_append (by decide) (by decide) (by decide)]
    rw [pyUpper_append, show pyUpper ['L', 'D', ' ', 'A', 'C', 'C', ',', '[', '2', ']']
      = ['L', 'D', ' ', 'A', 'C', 'C', ',', '[', '2', ']'] from by decide]
    rw [show (['L', 'D', ' ', 'A', 'C', 'C', ',', '[', '2', ']'] : List Char)
        ++ pyUpper (rstrip s.data)
      = ['L', 'D'] ++ ' ' :: (['A', 'C', 'C'] ++ ',' :: '['
          :: (['2'] ++ ']' :: pyUpper (rstrip s.data))) from by simp]
    rw [ensamblarLineaNorm_build ['L', 'D'] ['A', 'C', 'C'] ['2'] (pyUpper (rstrip s.data))
      (by decide) (by decide) (by simp) (by decide) (by decide) (by decide) (by decide)]
    decide
  · intro s hs
    unfold parsear_datos
    rw [data_append,
      show ("MEM[3] = 5".data : List Char)
        = ['M', 'E', 'M', '[', '3', ']', ' ', '=', ' ', '5'] from rfl]
    rw [pyStrip_append (by decide) (by decide) (by decide)]
    rw [show (['M', 'E', 'M', '[', '3', ']', ' ', '=', ' ', '5'] : List Char)
        ++ rstrip s.data
      = 'M' :: 'E' :: 'M' :: '[' :: (['3'] ++ ']' :: ' ' :: '=' :: ' '
          :: ('5' :: rstrip s.data)) from by simp]
    unfold parsearDatosNorm
    rw [matchDatos_build ['3'] ('5' :: rstrip s.data) (by decide) (by decide)]
    rw [List.dropWhile_cons_of_neg (by decide)]
    have htail : (rstrip s.data).takeWhile isDigitChar = [] := by
      cases hsd : s.data with
      | nil => simp [rstrip]
      | cons c cs =>
        have hcnd : isDigitChar c = false := by
          have := hs c
          rw [hsd] at this
          exact this (by simp)
        rcases rstrip_head c cs with hr | ⟨w, hw⟩
        · simp [hr]
        · rw [hw, List.takeWhile_cons_of_neg (by simp [hcnd])]
    rw [matchValor_head_digit (rstrip s.data) (by decide) (by decide), htail]
    decide

/-- Witness for C10 at the suffix ` extra`. -/
theorem assembler_C10_witness :
    ensamblar_linea ("LD ACC,[2]" ++ " extra") = ensamblar_linea "LD ACC,[2]"
    ∧ parsear_datos ("MEM[3] = 5" ++ " extra") = parsear_datos "MEM[3] = 5" :=
  ⟨assembler_C10.1 " extra", assembler_C10.2 " extra" (by decide)⟩

/-! ### Rendering lemmas for the driver -/

lemma procesar_ok : ∀ (lineas : List String) (a1 : List String) (a2 : List (Nat × Nat)) p,
    procesarLineas lineas a1 a2 = Except.ok p →
    p = (a1 ++ instrsOf lineas, a2 ++ datosOf lineas) := by
  intro lineas
  induction lineas with
  | nil =>
    intro a1 a2 p h
    simp only [procesarLineas] at h
    injection h with h'
    simp [instrsOf, datosOf, ← h']
  | cons l rest ih =>
    intro a1 a2 p h
    simp only [procesarLineas] at h
    cases hpd : parsear_datos l with
    | error e => rw [hpd] at h; cases h
    | ok o =>
      rw [hpd] at h
      cases o with
      | some dato =>
        have := ih _ _ _ h
        simp [instrsOf, datosOf, hpd, this]
      | none =>
        cases hel : ensamblar_linea l with
        | error e => rw [hel] at h; cases h
        | ok o2 =>
          rw [hel] at h
          cases o2 with
          | some cod =>
            have := ih _ _ _ h
            simp [instrsOf, datosOf, hpd, hel, this]
          | none =>
            have := ih _ _ _ h
            simp [instrsOf, datosOf, hpd, hel, this]

lemma foldl_append_data : ∀ (l : List String) (acc : String),
    (l.foldl (fun r s => r ++ s) acc).data = acc.data ++ (l.map String.data).flatten := by
  intro l
  induction l with
  | nil => intro acc; simp
  | cons x xs ih =>
    intro acc
    rw [List.foldl_cons, ih, data_append]
    simp

lemma join_data (l : List String) : (String.join l).data = (l.map String.data).flatten := by
  unfold String.join
  rw [foldl_append_data]
  rfl

lemma intercalate_go_data : ∀ (as : List String) (acc s : String),
    (String.intercalate.go acc s as).data
      = acc.data ++ (as.map (fun a => s.data ++ a.data)).flatten := by
  intro as
  induction as with
  | nil =>
    intro acc s
    simp [String.intercalate.go]
  | cons a as ih =>
    intro acc s
    rw [String.intercalate.go, ih]
    simp [data_append]

lemma intercalate_data_cons (s a : String) (as : List String) :
    (String.intercalate s (a :: as)).data
      = a.data ++ (as.map (fun b => s.data ++ b.data)).flatten := by
  unfold String.intercalate
  exact intercalate_go_data as a s

lemma fmtDato_data (dv : Nat × Nat) :
    (fmtDato dv).data = (fmtDatoLinea dv).data ++ ['\n'] := by
  unfold fmtDato fmtDatoLinea
  simp [data_append]

lemma flatten_newline_shift : ∀ (ds : List (Nat × Nat)),
    ['\n'] ++ (ds.map (fun x => (fmtDatoLinea x).data ++ ['\n'])).flatten
      = (ds.map (fun b => '\n' :: (fmtDatoLinea b).data)).flatten ++ ['\n'] := by
  intro ds
  induction ds with
  | nil => rfl
  | cons x xs ih =>
    simp only [List.map_cons, List.flatten_cons, List.cons_append, List.append_assoc] at ih ⊢
    rw [ih]
    simp

lemma join_fmtDato_data (datos : List (Nat × Nat)) (h : datos ≠ []) :
    (String.join (datos.map fmtDato)).data
      = (String.intercalate "\n" (datos.map fmtDatoLinea)).data ++ ['\n'] := by
  obtain ⟨d, ds, rfl⟩ := List.exists_cons_of_ne_nil h
  rw [join_data,
    show (d :: ds).map fmtDato = fmtDato d :: ds.map fmtDato from rfl,
    show (d :: ds).map fmtDatoLinea = fmtDatoLinea d :: ds.map fmtDatoLinea from rfl,
    intercalate_data_cons,
    show (fmtDato d :: ds.map fmtDato).map String.data
      = (fmtDato d).data :: (ds.map fmtDato).map String.data from rfl,
    List.flatten_cons, fmtDato_data,
    show (ds.map fmtDato).map String.data = ds.map (fun x => (fmtDatoLinea x).data ++ ['\n'])
      from by rw [List.map_map]; exact List.map_congr_left fun x _ => fmtDato_data x,
    show (ds.map fmtDatoLinea).map (fun b => ("\n" : String).data ++ b.data)
      = ds.map (fun b => '\n' :: (fmtDatoLinea b).data)
      from by rw [List.map_map]; rfl,
    List.append_assoc, List.append_assoc, flatten_newline_shift ds]

/-- Any successful run renders exactly as the spec describes: the collected
instructions in source order, one blank line, then the address-sorted data
lines, the whole trimmed. -/
lemma archivo_render {lineas : List String} {out : String}
    (h : ensamblar_archivo lineas = Except.ok out) :
    out = renderSpec (instrsOf lineas) (sortDatos (datosOf lineas)) := by
  unfold ensamblar_archivo at h
  cases hp : procesarLineas lineas [] [] with
  | error e => rw [hp] at h; cases h
  | ok p =>
    rw [hp] at h
    obtain ⟨i, d⟩ := p
    have hpd := procesar_ok lineas [] [] (i, d) hp
    rw [Prod.mk.injEq] at hpd
    obtain ⟨h1, h2⟩ := hpd
    rw [List.nil_append] at h1 h2
    subst h1
    subst h2
    injection h with h'
    subst h'
    unfold renderSpec
    congr 1
    rw [data_append, data_append, data_append, data_append]
    by_cases hnil : sortDatos (datosOf lineas) = []
    · rw [hnil]
      rfl
    · rw [join_fmtDato_data _ hnil]
      rw [← List.append_assoc]
      exact pyStrip_append_single (by decide)

/-- C4: for every input, a successful run's output is the instruction
encodings in source order, then exactly one blank line, then the data lines
`<value>, // mem[<address>]` in address-sorted order, with the whole text
trimmed; instructions always precede data regardless of source position. -/
theorem assembler_C4 (lineas : List String) (out : String)
    (h : ensamblar_archivo lineas = Except.ok out) :
    out = renderSpec (instrsOf lineas) (sortDatos (datosOf lineas)) :=
  archivo_render h

/-- Witness for C4 on the five-line end-to-end scenario (note data lines
appear after the instructions although they are interleaved in source). -/
theorem assembler_C4_witness :
    ("0x302, // LD ACC,[2]\n0x503, // ADD ACC,[3]\n0xE00, // HALT\n\n5, // mem[2]\n7, // mem[3]"
        : String)
      = renderSpec (instrsOf ["LD ACC,[2]", "MEM[2] = 5", "ADD ACC,[3]", "MEM[3] = 7", "HALT"])
          (sortDatos (datosOf ["LD ACC,[2]", "MEM[2] = 5", "ADD ACC,[3]", "MEM[3] = 7", "HALT"])) :=
  assembler_C4 _ _ (by decide)

/-- C5: the data entries of a successful run appear in the output stably
sorted ascending by address: the rendered data list is sorted by address, is
a permutation of the collected entries (duplicates neither merged nor
rejected), and for each address the entries with that address keep their
input order. -/
theorem assembler_C5 (lineas : List String) (out : String)
    (h : ensamblar_archivo lineas = Except.ok out) :
    out = renderSpec (instrsOf lineas) (sortDatos (datosOf lineas))
    ∧ (sortDatos (datosOf lineas)).Pairwise (fun a b => a.1 ≤ b.1)
    ∧ (sortDatos (datosOf lineas)).Perm (datosOf lineas)
    ∧ ∀ a : Nat, (sortDatos (datosOf lineas)).filter (fun dv => dv.1 == a)
        = (datosOf lineas).filter (fun dv => dv.1 == a) := by
  refine ⟨archivo_render h, ?sorted, ?perm, ?stable⟩
  case sorted =>
    haveI : IsTotal (Nat × Nat) (fun a b => a.1 ≤ b.1) := ⟨fun a b => Nat.le_total a.1 b.1⟩
    haveI : IsTrans (Nat × Nat) (fun a b => a.1 ≤ b.1) := ⟨fun a b c => Nat.le_trans⟩
    exact List.sorted_insertionSort _ _
  case perm => exact List.perm_insertionSort _ _
  case stable =>
    intro a
    have hsub : List.Sublist ((datosOf lineas).filter (fun dv => dv.1 == a))
        (sortDatos (datosOf lineas)) := by
      apply List.sublist_insertionSort
      · apply List.pairwise_of_forall_mem_list
        intro x hx y hy
        have hx' := (List.mem_filter.mp hx).2
        have hy' := (List.mem_filter.mp hy).2
        simp only [beq_iff_eq] at hx' hy'
        rw [hx', hy']
      · exact List.filter_sublist _
    have hfil : List.Sublist ((datosOf lineas).filter (fun dv => dv.1 == a))
        (((sortDatos (datosOf lineas))).filter (fun dv => dv.1 == a)) := by
      have h2 := hsub.filter (fun dv => dv.1 == a)
      rwa [List.filter_filter, show (fun (dv : Nat × Nat) => (dv.1 == a) && (dv.1 == a))
        = fun dv => dv.1 == a from funext fun dv => Bool.and_self _] at h2
    have hperm : ((sortDatos (datosOf lineas)).filter (fun dv => dv.1 == a)).Perm
        ((datosOf lineas).filter (fun dv => dv.1 == a)) :=
      (List.perm_insertionSort _ _).filter _
    exact (hfil.eq_of_length hperm.length_eq.symm).symm

/-- Witness for C5 on an input with out-of-order and duplicate addresses. -/
theorem assembler_C5_witness :
    ("2, // mem[2]\n9, // mem[2]\n1, // mem[5]" : String)
      = renderSpec (instrsOf ["MEM[5]=1", "MEM[2]=2", "MEM[2]=9"])
          (sortDatos (datosOf ["MEM[5]=1", "MEM[2]=2", "MEM[2]=9"])) :=
  (assembler_C5 ["MEM[5]=1", "MEM[2]=2", "MEM[2]=9"] _ (by decide)).1

/-! ### Unknown-instruction characterization -/

lemma matchInstr_none_of_matchDatos {l : List Char} {g} (h : matchDatos l = some g) :
    matchInstr (pyUpper l) = none := by
  cases l with
  | nil => simp [matchDatos] at h
  | cons c1 t1 =>
  cases t1 with
  | nil => simp [matchDatos] at h
  | cons c2 t2 =>
  cases t2 with
  | nil => simp [matchDatos] at h
  | cons c3 t3 =>
  cases t3 with
  | nil => simp [matchDatos] at h
  | cons c4 r =>
  simp only [matchDatos] at h
  by_cases hcond : (c1.toUpper = 'M' && c2.toUpper = 'E' && c3.toUpper = 'M' && c4 = '[') = true
  · rw [Bool.and_eq_true, Bool.and_eq_true, Bool.and_eq_true] at hcond
    obtain ⟨⟨⟨h1, h2⟩, h3⟩, h4⟩ := hcond
    rw [decide_eq_true_eq] at h1 h2 h3 h4
    subst h4
    simp only [pyUpper, List.map_cons]
    rw [h1, h2, h3, show ('[' : Char).toUpper = '[' from by decide]
    have e1 : List.takeWhile isWordChar ('M' :: 'E' :: 'M' :: '[' :: List.map Char.toUpper r)
        = ['M', 'E', 'M'] := by
      rw [List.takeWhile_cons_of_pos (by decide), List.takeWhile_cons_of_pos (by decide),
        List.takeWhile_cons_of_pos (by decide), List.takeWhile_cons_of_neg (by decide)]
    have e2 : List.dropWhile isWordChar ('M' :: 'E' :: 'M' :: '[' :: List.map Char.toUpper r)
        = '[' :: List.map Char.toUpper r := by
      rw [List.dropWhile_cons_of_pos (by decide), List.dropWhile_cons_of_pos (by decide),
        List.dropWhile_cons_of_pos (by decide), List.dropWhile_cons_of_neg (by decide)]
    simp only [matchInstr, e1, e2,
      List.takeWhile_cons_of_neg (show ¬ isSpaceChar '[' = true by decide)]
    simp
  · rw [if_neg hcond] at h
    cases h

lemma error_of_desconocida {linea : String} (h : lineaDesconocida linea = true) :
    ∃ n, ensamblar_linea linea = Except.error (AsmErr.unknownInstruction n) := by
  unfold lineaDesconocida at h
  rw [Bool.and_eq_true] at h
  obtain ⟨h4, harm⟩ := h
  cases hm : matchInstr (pyUpper (pyStrip linea.data)) with
  | none => rw [hm] at harm; simp at harm
  | some g =>
    obtain ⟨i, r, ds⟩ := g
    rw [hm] at harm
    have hlook : List.lookup (String.mk i) OPCODES = none := by
      simpa [Option.isNone_iff_eq_none] using harm
    refine ⟨String.mk i, ?_⟩
    unfold ensamblar_linea ensamblarLineaNorm
    have hne : pyUpper (pyStrip linea.data) ≠ [] := by
      intro hnil
      rw [hnil] at hm
      simp [matchInstr] at hm
    have hsemi : ¬ (pyUpper (pyStrip linea.data)).take 1 = [';'] := by
      intro hcon
      obtain ⟨a, L', hL⟩ := List.exists_cons_of_ne_nil hne
      rw [hL] at hcon hm
      simp only [List.take_succ_cons, List.take_zero, List.cons.injEq, and_true] at hcon
      subst hcon
      simp [matchInstr,
        List.takeWhile_cons_of_neg (show ¬ isWordChar ';' = true by decide)] at hm
    rw [if_neg (by simpa [List.isEmpty_iff] using hne), if_neg hsemi,
      if_neg (by simpa using h4), hm]
    simp [hlook]

lemma ensamblarLineaNorm_match {l i r ds : List Char}
    (h1 : ¬ l.isEmpty = true) (h2 : ¬ l.take 1 = [';']) (h3 : ¬ l.take 4 = "HALT".data)
    (hm : matchInstr l = some (i, r, ds)) :
    ensamblarLineaNorm l
      = (match List.lookup (String.mk i) OPCODES with
         | none => Except.error (AsmErr.unknownInstruction (String.mk i))
         | some opcode => Except.ok (some ("0x"
             ++ hex3 (valorInstr opcode (if String.mk r = "ACC" then 1 else 0) 0 (digitsToNat ds))
             ++ ", // " ++ String.mk i ++ " " ++ String.mk r
             ++ ",[" ++ toString (digitsToNat ds) ++ "]"))) := by
  unfold ensamblarLineaNorm
  rw [if_neg h1, if_neg h2, if_neg h3, hm]

lemma ok_of_not_desconocida {linea : String} (h : lineaDesconocida linea = false) :
    ∃ o, ensamblar_linea linea = Except.ok o := by
  unfold lineaDesconocida at h
  unfold ensamblar_linea
  by_cases h1 : (pyUpper (pyStrip linea.data)).isEmpty = true
  · exact ⟨none, by unfold ensamblarLineaNorm; rw [if_pos h1]⟩
  by_cases h2 : (pyUpper (pyStrip linea.data)).take 1 = [';']
  · exact ⟨none, by unfold ensamblarLineaNorm; rw [if_neg h1, if_pos h2]⟩
  by_cases h3 : (pyUpper (pyStrip linea.data)).take 4 = "HALT".data
  · exact ⟨some "0xE00, // HALT", by unfold ensamblarLineaNorm; rw [if_neg h1, if_neg h2, if_pos h3]⟩
  cases hm : matchInstr (pyUpper (pyStrip linea.data)) with
  | none =>
    exact ⟨none, by unfold ensamblarLineaNorm; rw [if_neg h1, if_neg h2, if_neg h3, hm]⟩
  | some g =>
    obtain ⟨i, r, ds⟩ := g
    have h4 : (!((pyUpper (pyStrip linea.data)).take 4 == "HALT".data)) = true := by
      simpa using h3
    rw [h4, Bool.true_and, hm] at h
    simp only [Option.isNone_eq_false_iff, Option.isSome_iff_exists] at h
    cases hlook : List.lookup (String.mk i) OPCODES with
    | none =>
      exfalso
      obtain ⟨op, hop⟩ := h
      rw [hlook] at hop
      cases hop
    | some op =>
      refine ⟨some ("0x"
        ++ hex3 (valorInstr op (if String.mk r = "ACC" then 1 else 0) 0 (digitsToNat ds))
        ++ ", // " ++ String.mk i ++ " " ++ String.mk r
        ++ ",[" ++ toString (digitsToNat ds) ++ "]"), ?_⟩
      rw [ensamblarLineaNorm_match h1 h2 h3 hm, hlook]

lemma parse_cases {l : String} (h : parseOk l = true) : ∃ o, parsear_datos l = Except.ok o := by
  unfold parseOk at h
  cases hp : parsear_datos l with
  | error e => rw [hp] at h; simp at h
  | ok o => exact ⟨o, rfl⟩

lemma desconocida_false_of_dato {linea : String} {d : Nat × Nat}
    (h : parsear_datos linea = Except.ok (some d)) :
    lineaDesconocida linea = false := by
  unfold parsear_datos parsearDatosNorm at h
  cases hm : matchDatos (pyStrip linea.data) with
  | none => rw [hm] at h; simp at h
  | some g =>
    have hnone := matchInstr_none_of_matchDatos hm
    unfold lineaDesconocida
    rw [hnone]
    simp

lemma procesar_unknown_iff : ∀ (lineas : List String) (a1 : List String) (a2 : List (Nat × Nat)),
    (∀ l ∈ lineas, parseOk l = true) →
    ((∃ n, procesarLineas lineas a1 a2 = Except.error (AsmErr.unknownInstruction n))
      ↔ ∃ l ∈ lineas, lineaDesconocida l = true) := by
  intro lineas
  induction lineas with
  | nil =>
    intro a1 a2 _
    simp [procesarLineas]
  | cons l rest ih =>
    intro a1 a2 hall
    have hl := hall l (by simp)
    obtain ⟨o, hp⟩ := parse_cases hl
    simp only [procesarLineas, hp]
    cases o with
    | some d =>
      have hfalse := desconocida_false_of_dato hp
      rw [ih _ _ (fun x hx => hall x (by simp [hx]))]
      constructor
      · rintro ⟨x, hx, hbad⟩
        exact ⟨x, by simp [hx], hbad⟩
      · rintro ⟨x, hx, hbad⟩
        rcases List.mem_cons.mp hx with rfl | hx'
        · rw [hfalse] at hbad
          cases hbad
        · exact ⟨x, hx', hbad⟩
    | none =>
      cases hdl : lineaDesconocida l with
      | true =>
        obtain ⟨n, herr⟩ := error_of_desconocida hdl
        rw [herr]
        constructor
        · intro _
          exact ⟨l, by simp, hdl⟩
        · intro _
          exact ⟨n, rfl⟩
      | false =>
        obtain ⟨o2, hok⟩ := ok_of_not_desconocida hdl
        rw [hok]
        cases o2 <;>
        · rw [ih _ _ (fun x hx => hall x (by simp [hx]))]
          constructor
          · rintro ⟨x, hx, hbad⟩
            exact ⟨x, by simp [hx], hbad⟩
          · rintro ⟨x, hx, hbad⟩
            rcases List.mem_cons.mp hx with rfl | hx'
            · rw [hdl] at hbad
              cases hbad
            · exact ⟨x, hx', hbad⟩

/-- C3 (counterexample): the claimed equivalence fails as stated.  The line
`HALTX R,[0]` matches the two-operand pattern with the unrecognized
mnemonic `HALTX`, yet the run raises nothing and produces output, because
the `HALT`-prefix rule consumes the line before the two-operand rule ever
sees it. -/
theorem assembler_C3_counterexample :
    matchInstr (pyUpper (pyStrip ("HALTX R,[0]" : String).data))
      = some ("HALTX".data, "R".data, "0".data)
    ∧ List.lookup "HALTX" OPCODES = none
    ∧ ensamblar_archivo ["HALTX R,[0]"] = Except.ok "0xE00, // HALT" := by
  refine ⟨by decide, by decide, by decide⟩

/-- C3 (amended): provided no line makes the data parser itself raise (its
`int(valor_str, 0)` call can raise `ValueError` on a leading-zero decimal
value first), a run raises the unknown-instruction `ValueError` - aborting
with no output - if and only if some line, once stripped and uppercased,
does not begin with `HALT` and matches the two-operand pattern with a
mnemonic outside the opcode table. -/
theorem assembler_C3 (lineas : List String) (hnoint : ∀ l ∈ lineas, parseOk l = true) :
    ((∃ l ∈ lineas, lineaDesconocida l = true)
      ↔ ∃ n, ensamblar_archivo lineas = Except.error (AsmErr.unknownInstruction n)) := by
  rw [← procesar_unknown_iff lineas [] [] hnoint]
  unfold ensamblar_archivo
  constructor
  · rintro ⟨n, herr⟩
    rw [herr]
    exact ⟨n, rfl⟩
  · rintro ⟨n, herr⟩
    cases hp : procesarLineas lineas [] [] with
    | error e =>
      rw [hp] at herr
      injection herr with h'
      exact ⟨n, by rw [h']⟩
    | ok p =>
      obtain ⟨i, d⟩ := p
      rw [hp] at herr
      simp at herr

/-- Witness for C3: a run containing `MOV ACC,[0]` aborts with the
unknown-instruction error. -/
theorem assembler_C3_witness :
    ∃ n, ensamblar_archivo ["LD ACC,[1]", "MOV ACC,[0]", "MEM[2] = 5"]
      = Except.error (AsmErr.unknownInstruction n) :=
  (assembler_C3 ["LD ACC,[1]", "MOV ACC,[0]", "MEM[2] = 5"] (by decide)).mp
    ⟨"MOV ACC,[0]", by decide, by decide⟩

end Ensamblador
